import Mathlib

/-!
Verification of the mini-brevo application (src/app.py): a shallow embedding
of its contact store, delivery adapter, templating and dispatch workflow,
with theorems about the send/logging behaviour.

Python strings are modelled as `List Char`; environment variables as
`Option (List Char)` (absent / present); the network side effects of
`smtplib` as an oracle `Except Str Unit` giving the outcome of the
connect/starttls/login/sendmail sequence of one call; the sqlite tables as
Lean lists.  Timestamps (`created_at`, `sent_at`) play no role in any
property below and are omitted from the records.
-/

/-- A Python string. -/
abbrev Str := List Char

/-- Python `str.strip()` (whitespace trim at both ends). -/
def pyStrip (s : Str) : Str :=
  ((s.dropWhile Char.isWhitespace).reverse.dropWhile Char.isWhitespace).reverse

/-- Python `str.lower()` (ASCII lowering, as `Char.toLower`). -/
def pyLower (s : Str) : Str :=
  s.map Char.toLower

/-- Python truthiness of an environment lookup result:
`None` and `""` are falsy. -/
def pyTruthy : Option Str → Bool
  | none => false
  | some s => !s.isEmpty

/-- Python `a or b` for an optional string `a` and a string `b`. -/
def pyOrStr (a : Option Str) (b : Str) : Str :=
  match a with
  | none => b
  | some s => if s.isEmpty then b else s

/-- Python `os.getenv(var, default)`. -/
def getenvD (v : Option Str) (d : Str) : Str :=
  match v with
  | none => d
  | some s => s

/-- The environment-sourced configuration read at module load
(src/app.py lines 17-21).  Each field is the raw value of the
corresponding environment variable, `none` when unset. -/
structure Config where
  smtp_host : Option Str
  smtp_user : Option Str
  smtp_pass : Option Str
  from_email_env : Option Str

/-- `FROM_EMAIL = os.getenv("FROM_EMAIL", SMTP_USER or "demo@example.com")`
(src/app.py line 21). -/
def FROM_EMAIL (cfg : Config) : Str :=
  getenvD cfg.from_email_env (pyOrStr cfg.smtp_user "demo@example.com".toList)

/-- The guard of `send_email_smtp`:
`not (SMTP_HOST and SMTP_USER and SMTP_PASS and FROM_EMAIL)`
(src/app.py line 110).  `true` means the adapter simulates. -/
def simulationGuard (cfg : Config) : Bool :=
  !(pyTruthy cfg.smtp_host && pyTruthy cfg.smtp_user && pyTruthy cfg.smtp_pass
      && !(FROM_EMAIL cfg).isEmpty)

/-- `send_email_smtp(to_email, subject, body_html)` (src/app.py lines
109-127).  `net` is the outcome of the network calls of the `try` block
(message build, connect, starttls, login, sendmail): `Except.ok ()` when
they all succeed, `Except.error e` when any of them raises `e`.  Returns
the pair `(ok, detail)` exactly as the Python function does. -/
def send_email_smtp (cfg : Config) (net : Except Str Unit)
    (to_email subject body_html : Str) : Bool × Str :=
  if simulationGuard cfg then
    (true, "SIMULATED".toList)
  else
    match net with
    | Except.ok _ => (true, [])
    | Except.error e => (false, e)

/-- A row of the `contacts` table (src/app.py lines 38-45); `created_at`
omitted (never read). -/
structure Contact where
  id : Nat
  name : Str
  email : Str
  tags : Str
deriving DecidableEq, Repr

/-- The `contacts` table with its autoincrement counter. -/
structure ContactStore where
  contacts : List Contact
  nextId : Nat
deriving DecidableEq, Repr

/-- `insert_contact(name, email, tags)` (src/app.py lines 67-74):
`INSERT OR IGNORE` against the `UNIQUE` email column, storing
`name.strip()`, `email.strip().lower()`, `tags.strip()`. -/
def insert_contact (st : ContactStore) (name email tags : Str) : ContactStore :=
  let e := pyLower (pyStrip email)
  if st.contacts.any (fun c => c.email = e) then st
  else
    { contacts := st.contacts ++ [⟨st.nextId, pyStrip name, e, pyStrip tags⟩],
      nextId := st.nextId + 1 }

/-- A pandas cell as seen through `str(row.get(col, ""))`:
`absent` – the column is missing, `row.get` returns the default `""`;
`nan` – the column exists but the cell is blank, `row.get` returns the
float NaN; `val s` – an ordinary string cell. -/
inductive Cell where
  | absent
  | nan
  | val (s : Str)
deriving DecidableEq, Repr

/-- Python `str(...)` applied to the value of `row.get(col, "")`:
`str("") = ""`, `str(float("nan")) = "nan"`. -/
def pyStr : Cell → Str
  | Cell.absent => []
  | Cell.nan => "nan".toList
  | Cell.val s => s

/-- One row of the uploaded dataframe. -/
structure Row where
  email : Cell
  name : Cell
  tags : Cell
deriving DecidableEq, Repr

/-- `str(row.get("email", "")).strip().lower()` (src/app.py line 80). -/
def rowEmail (row : Row) : Str := pyLower (pyStrip (pyStr row.email))

/-- `str(row.get("name", "")).strip()` (src/app.py line 79). -/
def rowName (row : Row) : Str := pyStrip (pyStr row.name)

/-- `str(row.get("tags", "")).strip()` (src/app.py line 81). -/
def rowTags (row : Row) : Str := pyStrip (pyStr row.tags)

/-- `bulk_import_contacts(df)` (src/app.py lines 76-88).  `raises i` tells
whether the `insert_contact` call for the row of index `i` raises an
exception (the `except Exception: pass` branch); a raising insert leaves
the store unchanged and is not counted.  `i` is the index of the first
row.  Returns the final store together with the returned `count`. -/
def bulk_import_contacts (raises : Nat → Bool) (st : ContactStore) :
    List Row → Nat → ContactStore × Nat
  | [], _ => (st, 0)
  | row :: rest, i =>
    let email := rowEmail row
    if email.isEmpty then
      bulk_import_contacts raises st rest (i + 1)
    else if raises i then
      bulk_import_contacts raises st rest (i + 1)
    else
      let st' := insert_contact st (rowName row) email (rowTags row)
      let done := bulk_import_contacts raises st' rest (i + 1)
      (done.1, done.2 + 1)

/-- A campaign row (src/app.py lines 46-53); `created_at` omitted. -/
structure Campaign where
  id : Nat
  subject : Str
  body : Str

/-- A recipient tuple as iterated by `page_send` (a row of the contacts
dataframe): `name` is `none` when NULL in the table. -/
structure Recipient where
  id : Nat
  name : Option Str
  email : Str

/-- A row of the `sends` table as written by `log_send` (src/app.py lines
99-106); `sent_at` omitted. -/
structure SendRecord where
  campaign_id : Nat
  contact_id : Option Nat
  email : Str
  status : Str
  error : Str
deriving DecidableEq, Repr

/-- One invocation of the delivery adapter (its arguments). -/
structure SendCall where
  to_email : Str
  subject : Str
  body_html : Str
deriving DecidableEq, Repr

/-- The literal placeholder token `{{name}}` (braces escaped). -/
def placeholder : Str := "\x7b\x7bname\x7d\x7d".toList

/-- Core of Python `s.replace(pat, rep)` for a nonempty `pat`: scan left
to right; on a match emit `rep` and skip `pat.length` characters, else
emit one character and advance.  `fuel` only bounds the recursion (it is
always instantiated with the length of the scanned string). -/
def replaceAux (pat rep : Str) : Nat → Str → Str
  | 0, s => s
  | _ + 1, [] => []
  | fuel + 1, c :: cs =>
    if pat.isPrefixOf (c :: cs) && !pat.isEmpty then
      rep ++ replaceAux pat rep fuel (cs.drop (pat.length - 1))
    else
      c :: replaceAux pat rep fuel cs

/-- Python `s.replace(pat, rep)` (left-to-right, non-overlapping; for the
degenerate `pat = ""` our model returns `s` unchanged — the program only
ever replaces the nonempty placeholder token). -/
def pyReplace (s pat rep : Str) : Str :=
  replaceAux pat rep s.length s

/-- `campaign.body.replace("{{name}}", value)` (src/app.py lines 237 and
258). -/
def render (body value : Str) : Str :=
  pyReplace body placeholder value

/-- Core of Python `s.split(pat)` for nonempty `pat`: the maximal
pat-free segments between the scanned (leftmost, non-overlapping)
occurrences.  Fueled like `replaceAux`. -/
def splitAux (pat : Str) : Nat → Str → List Str
  | 0, s => [s]
  | _ + 1, [] => [[]]
  | fuel + 1, c :: cs =>
    if pat.isPrefixOf (c :: cs) && !pat.isEmpty then
      [] :: splitAux pat fuel (cs.drop (pat.length - 1))
    else
      match splitAux pat fuel cs with
      | [] => [[c]]
      | seg :: rest => (c :: seg) :: rest

/-- Python `s.split(pat)` (for nonempty `pat`). -/
def pySplit (s pat : Str) : List Str :=
  splitAux pat s.length s

/-- Join a list of segments with a separator:
`joinSep sep [a, b, c] = a ++ sep ++ b ++ sep ++ c`. -/
def joinSep (sep : Str) : List Str → Str
  | [] => []
  | [a] => a
  | a :: b :: rest => a ++ sep ++ joinSep sep (b :: rest)

/-- `page_send`, test branch (src/app.py lines 235-240): render the body
with the fixed literal `"Prueba"`, invoke the adapter once, write one
record with NULL `contact_id`.  Returns the records appended to the
`sends` table (in insertion order), the adapter invocations made, and the
`ok` flag.  The branch runs only when `test_email` is truthy; it is a
no-op (`none`) otherwise. -/
def page_send_test (cfg : Config) (net : Except Str Unit) (campaign : Campaign)
    (test_email : Str) : Option (List SendRecord × List SendCall × Bool) :=
  if test_email.isEmpty then none
  else
    let body := render campaign.body "Prueba".toList
    let res := send_email_smtp cfg net test_email campaign.subject body
    let status := if res.1 then "SENT".toList else "ERROR".toList
    some ([⟨campaign.id, none, test_email, status, res.2⟩],
          [⟨test_email, campaign.subject, body⟩],
          res.1)

/-- `page_send`, bulk branch (src/app.py lines 255-262): iterate the
recipients in order; for each, render the body with `r.name or ""`,
invoke the adapter, append one record via `log_send`, and count the
successes.  `net k` is the network outcome of the `k`-th adapter call;
`k` is the index of the first call.  Returns the records appended to the
`sends` table in insertion order, the adapter invocations in call order,
and the final `sent_ok` counter. -/
def page_send_bulk (cfg : Config) (net : Nat → Except Str Unit)
    (campaign : Campaign) : List Recipient → Nat →
    List SendRecord × List SendCall × Nat
  | [], _ => ([], [], 0)
  | r :: rs, k =>
    let personalized := render campaign.body (pyOrStr r.name [])
    let res := send_email_smtp cfg (net k) r.email campaign.subject personalized
    let status := if res.1 then "SENT".toList else "ERROR".toList
    let done := page_send_bulk cfg net campaign rs (k + 1)
    (⟨campaign.id, some r.id, r.email, status, res.2⟩ :: done.1,
     ⟨r.email, campaign.subject, personalized⟩ :: done.2.1,
     (if res.1 then 1 else 0) + done.2.2)

/-! ## Replacement machinery: unfolding and structure lemmas -/

theorem replaceAux_fuel_eq (pat rep : Str) :
    ∀ f g s, s.length ≤ f → s.length ≤ g →
      replaceAux pat rep f s = replaceAux pat rep g s := by
  intro f
  induction f with
  | zero =>
    intro g s hf _
    have hs : s = [] := List.eq_nil_of_length_eq_zero (Nat.le_zero.mp hf)
    subst hs
    cases g <;> rfl
  | succ m ih =>
    intro g s hf hg
    cases s with
    | nil => cases g <;> rfl
    | cons c cs =>
      cases g with
      | zero => simp at hg
      | succ g' =>
        have hcs : cs.length ≤ m := Nat.succ_le_succ_iff.mp hf
        have hcs' : cs.length ≤ g' := Nat.succ_le_succ_iff.mp hg
        simp only [replaceAux]
        by_cases hguard : (pat.isPrefixOf (c :: cs) && !pat.isEmpty) = true
        · rw [if_pos hguard, if_pos hguard]
          have hd : (cs.drop (pat.length - 1)).length ≤ cs.length := by
            simp [List.length_drop]
          exact congrArg (rep ++ ·)
            (ih g' _ (le_trans hd hcs) (le_trans hd hcs'))
        · rw [if_neg hguard, if_neg hguard]
          exact congrArg (c :: ·) (ih g' cs hcs hcs')

theorem pyReplace_nil (pat rep : Str) : pyReplace [] pat rep = [] := rfl

theorem pyReplace_cons_pos {pat : Str} (rep : Str) {c : Char} {cs : Str}
    (h : (pat.isPrefixOf (c :: cs) && !pat.isEmpty) = true) :
    pyReplace (c :: cs) pat rep
      = rep ++ pyReplace (cs.drop (pat.length - 1)) pat rep := by
  show replaceAux pat rep (cs.length + 1) (c :: cs) = _
  simp only [replaceAux, if_pos h]
  exact congrArg (rep ++ ·)
    (replaceAux_fuel_eq pat rep cs.length _ _ (by simp [List.length_drop]) le_rfl)

theorem pyReplace_cons_neg {pat : Str} (rep : Str) {c : Char} {cs : Str}
    (h : ¬ (pat.isPrefixOf (c :: cs) && !pat.isEmpty) = true) :
    pyReplace (c :: cs) pat rep = c :: pyReplace cs pat rep := by
  show replaceAux pat rep (cs.length + 1) (c :: cs) = _
  simp only [replaceAux, if_neg h]
  rfl

theorem splitAux_fuel_eq (pat : Str) :
    ∀ f g s, s.length ≤ f → s.length ≤ g →
      splitAux pat f s = splitAux pat g s := by
  intro f
  induction f with
  | zero =>
    intro g s hf _
    have hs : s = [] := List.eq_nil_of_length_eq_zero (Nat.le_zero.mp hf)
    subst hs
    cases g <;> rfl
  | succ m ih =>
    intro g s hf hg
    cases s with
    | nil => cases g <;> rfl
    | cons c cs =>
      cases g with
      | zero => simp at hg
      | succ g' =>
        have hcs : cs.length ≤ m := Nat.succ_le_succ_iff.mp hf
        have hcs' : cs.length ≤ g' := Nat.succ_le_succ_iff.mp hg
        simp only [splitAux]
        by_cases hguard : (pat.isPrefixOf (c :: cs) && !pat.isEmpty) = true
        · rw [if_pos hguard, if_pos hguard]
          have hd : (cs.drop (pat.length - 1)).length ≤ cs.length := by
            simp [List.length_drop]
          rw [ih g' _ (le_trans hd hcs) (le_trans hd hcs')]
        · rw [if_neg hguard, if_neg hguard, ih g' cs hcs hcs']

theorem pySplit_nil (pat : Str) : pySplit [] pat = [[]] := rfl

theorem pySplit_cons_pos {pat : Str} {c : Char} {cs : Str}
    (h : (pat.isPrefixOf (c :: cs) && !pat.isEmpty) = true) :
    pySplit (c :: cs) pat = [] :: pySplit (cs.drop (pat.length - 1)) pat := by
  show splitAux pat (cs.length + 1) (c :: cs) = _
  simp only [splitAux, if_pos h]
  rw [splitAux_fuel_eq pat cs.length _ _ (by simp [List.length_drop]) le_rfl]
  rfl

theorem pySplit_cons_neg {pat : Str} {c : Char} {cs : Str} {seg : Str}
    {rest : List Str} (h : ¬ (pat.isPrefixOf (c :: cs) && !pat.isEmpty) = true)
    (hsp : pySplit cs pat = seg :: rest) :
    pySplit (c :: cs) pat = (c :: seg) :: rest := by
  show splitAux pat (cs.length + 1) (c :: cs) = _
  simp only [splitAux, if_neg h]
  have : splitAux pat cs.length cs = seg :: rest := hsp
  rw [this]

theorem pySplit_ne_nil (pat : Str) : ∀ s : Str, pySplit s pat ≠ [] := by
  intro s
  induction s with
  | nil => simp [pySplit_nil]
  | cons c cs ih =>
    by_cases hguard : (pat.isPrefixOf (c :: cs) && !pat.isEmpty) = true
    · rw [pySplit_cons_pos hguard]; simp
    · obtain ⟨seg, rest, hsr⟩ := List.exists_cons_of_ne_nil ih
      rw [pySplit_cons_neg hguard hsr]; simp

theorem joinSep_nil_head (sep : Str) {l : List Str} (h : l ≠ []) :
    joinSep sep ([] :: l) = sep ++ joinSep sep l := by
  obtain ⟨b, rest, rfl⟩ := List.exists_cons_of_ne_nil h
  simp [joinSep]

theorem joinSep_cons_head (sep : Str) (c : Char) (seg : Str) (rest : List Str) :
    joinSep sep ((c :: seg) :: rest) = c :: joinSep sep (seg :: rest) := by
  cases rest with
  | nil => rfl
  | cons b r => simp [joinSep]

/-- Python's replace is split-and-join: every scanned occurrence of the
pattern is replaced by the replacement text, the text between occurrences
is kept. -/
theorem pyReplace_eq_joinSep (pat rep : Str) :
    ∀ s, pyReplace s pat rep = joinSep rep (pySplit s pat) := by
  have key : ∀ n s, List.length s ≤ n →
      pyReplace s pat rep = joinSep rep (pySplit s pat) := by
    intro n
    induction n with
    | zero =>
      intro s hs
      have hs0 : s = [] := List.eq_nil_of_length_eq_zero (Nat.le_zero.mp hs)
      subst hs0; rfl
    | succ m ih =>
      intro s hs
      cases s with
      | nil => rfl
      | cons c cs =>
        have hcs : cs.length ≤ m := Nat.succ_le_succ_iff.mp hs
        by_cases hguard : (pat.isPrefixOf (c :: cs) && !pat.isEmpty) = true
        · rw [pyReplace_cons_pos rep hguard, pySplit_cons_pos hguard]
          have hd : (cs.drop (pat.length - 1)).length ≤ m := by
            simp only [List.length_drop]
            omega
          rw [joinSep_nil_head rep (pySplit_ne_nil pat _), ih _ hd]
        · obtain ⟨seg, rest, hsr⟩ :=
            List.exists_cons_of_ne_nil (pySplit_ne_nil pat cs)
          rw [pyReplace_cons_neg rep hguard, pySplit_cons_neg hguard hsr,
            joinSep_cons_head, ← hsr, ih _ hcs]
  intro s
  exact key s.length s le_rfl

/-- The first split segment is a prefix of the scanned string. -/
theorem pySplit_head_of (pat : Str) :
    ∀ {s seg : Str} {rest : List Str}, pySplit s pat = seg :: rest → seg <+: s := by
  intro s
  induction s with
  | nil =>
    intro seg rest h
    rw [pySplit_nil] at h
    cases h
    exact List.nil_prefix
  | cons c cs ih =>
    intro seg rest h
    by_cases hguard : (pat.isPrefixOf (c :: cs) && !pat.isEmpty) = true
    · rw [pySplit_cons_pos hguard] at h
      cases h
      exact List.nil_prefix
    · obtain ⟨seg0, rest0, hsr⟩ :=
        List.exists_cons_of_ne_nil (pySplit_ne_nil pat cs)
      rw [pySplit_cons_neg hguard hsr] at h
      cases h
      exact (List.cons_prefix_cons).mpr ⟨rfl, ih hsr⟩

/-- No split segment contains an occurrence of the (nonempty) pattern:
every occurrence found by the scan is taken out, and what is kept between
occurrences is occurrence-free. -/
theorem pySplit_seg_clean (p0 : Char) (pt : Str) :
    ∀ s seg, seg ∈ pySplit s (p0 :: pt) → ¬ (p0 :: pt) <:+: seg := by
  have key : ∀ n s, List.length s ≤ n →
      ∀ seg, seg ∈ pySplit s (p0 :: pt) → ¬ (p0 :: pt) <:+: seg := by
    intro n
    induction n with
    | zero =>
      intro s hs seg hseg
      have hs0 : s = [] := List.eq_nil_of_length_eq_zero (Nat.le_zero.mp hs)
      subst hs0
      rw [pySplit_nil] at hseg
      rcases List.mem_singleton.mp hseg with rfl
      simp
    | succ m ih =>
      intro s hs seg hseg
      cases s with
      | nil =>
        rw [pySplit_nil] at hseg
        rcases List.mem_singleton.mp hseg with rfl
        simp
      | cons c cs =>
        have hcs : cs.length ≤ m := Nat.succ_le_succ_iff.mp hs
        by_cases hguard :
            ((p0 :: pt).isPrefixOf (c :: cs) && !(p0 :: pt).isEmpty) = true
        · rw [pySplit_cons_pos hguard] at hseg
          rcases List.mem_cons.mp hseg with rfl | hseg'
          · simp
          · have hd : (cs.drop ((p0 :: pt).length - 1)).length ≤ m := by
              simp only [List.length_drop]
              omega
            exact ih _ hd seg hseg'
        · obtain ⟨seg0, rest0, hsr⟩ :=
            List.exists_cons_of_ne_nil (pySplit_ne_nil (p0 :: pt) cs)
          rw [pySplit_cons_neg hguard hsr] at hseg
          rcases List.mem_cons.mp hseg with rfl | hseg'
          · intro hocc
            rcases List.infix_cons_iff.mp hocc with hpre | htail
            · rcases List.cons_prefix_cons.mp hpre with ⟨rfl, hpt⟩
              have hseg0 : seg0 <+: cs := pySplit_head_of _ hsr
              have : (p0 :: pt) <+: (p0 :: cs) :=
                List.cons_prefix_cons.mpr ⟨rfl, hpt.trans hseg0⟩
              have : (p0 :: pt).isPrefixOf (p0 :: cs) = true :=
                List.isPrefixOf_iff_prefix.mpr this
              simp [this] at hguard
            · exact ih _ hcs seg0 (hsr ▸ List.mem_cons_self seg0 rest0) htail
          · exact ih _ hcs seg (hsr ▸ List.mem_cons_of_mem seg0 hseg')
  intro s
  exact key s.length s le_rfl

/-- A string without any occurrence of the pattern is split into one
piece: itself. -/
theorem pySplit_eq_self_of_no_occ (pat : Str) :
    ∀ s, ¬ pat <:+: s → pySplit s pat = [s] := by
  intro s
  induction s with
  | nil => intro _; exact pySplit_nil pat
  | cons c cs ih =>
    intro hno
    by_cases hguard : (pat.isPrefixOf (c :: cs) && !pat.isEmpty) = true
    · have hpre := List.isPrefixOf_iff_prefix.mp (Bool.and_elim_left hguard)
      exact absurd hpre.isInfix hno
    · have hno' : ¬ pat <:+: cs := fun h =>
        hno (List.infix_cons_iff.mpr (Or.inr h))
      exact pySplit_cons_neg hguard (ih hno')

/-- Rendering a body without the placeholder leaves it unchanged. -/
theorem pyReplace_no_occ (pat rep : Str) (s : Str) (h : ¬ pat <:+: s) :
    pyReplace s pat rep = s := by
  rw [pyReplace_eq_joinSep, pySplit_eq_self_of_no_occ pat s h]
  rfl

/-! ## No remaining occurrence after replacement

For a pattern and a replacement that cannot interlock (the head of the
pattern does not occur in the replacement and the head of the replacement
does not occur in the pattern), the replaced string contains no
occurrence of the pattern at all. -/

theorem prefix_append_split {α : Type} {p a b : List α} (h : p <+: a ++ b) :
    p <+: a ∨ ∃ y, p = a ++ y ∧ y <+: b := by
  by_cases hlen : p.length ≤ a.length
  · exact Or.inl
      (List.prefix_of_prefix_length_le h (List.prefix_append a b) hlen)
  · have ha : a <+: p :=
      List.prefix_of_prefix_length_le (List.prefix_append a b) h
        (Nat.le_of_not_le hlen)
    obtain ⟨y, rfl⟩ := ha
    exact Or.inr ⟨y, rfl, (List.prefix_append_right_inj a).mp h⟩

theorem infix_append_split {α : Type} {p a b : List α} (h : p <:+: a ++ b) :
    p <:+: a ∨ p <:+: b ∨
      ∃ x y, p = x ++ y ∧ x ≠ [] ∧ x <:+ a ∧ y <+: b := by
  induction a with
  | nil => exact Or.inr (Or.inl h)
  | cons c a' ih =>
    rcases List.infix_cons_iff.mp h with hpre | htail
    · have hpre' : p <+: (c :: a') ++ b := hpre
      rcases prefix_append_split hpre' with hpa | ⟨y, rfl, hy⟩
      · exact Or.inl hpa.isInfix
      · exact Or.inr (Or.inr ⟨c :: a', y, rfl, by simp, List.suffix_rfl, hy⟩)
    · rcases ih htail with h1 | h2 | ⟨x, y, rfl, hx, hxa, hyb⟩
      · exact Or.inl (List.infix_cons_iff.mpr (Or.inr h1))
      · exact Or.inr (Or.inl h2)
      · exact Or.inr (Or.inr
          ⟨x, y, rfl, hx, hxa.trans (List.suffix_cons c a'), hyb⟩)

/-- Transfer lemma: a nonempty suffix `q` of the pattern that is a prefix
of the replaced string was already a prefix of the original string —
provided the head of the replacement does not occur in the pattern. -/
theorem pyReplace_suffix_transfer {p0 : Char} {pt : Str} {r0 : Char} {rt : Str}
    (hr : r0 ∉ p0 :: pt) :
    ∀ s q, q ≠ [] → q <:+ (p0 :: pt) →
      q <+: pyReplace s (p0 :: pt) (r0 :: rt) → q <+: s := by
  intro s
  induction s with
  | nil =>
    intro q hq _ hpre
    rw [pyReplace_nil] at hpre
    exact absurd (List.prefix_nil.mp hpre) hq
  | cons c cs ih =>
    intro q hq hsuf hpre
    obtain ⟨q0, q', rfl⟩ := List.exists_cons_of_ne_nil hq
    by_cases hguard :
        ((p0 :: pt).isPrefixOf (c :: cs) && !(p0 :: pt).isEmpty) = true
    · rw [pyReplace_cons_pos _ hguard] at hpre
      have h0 : q0 = r0 := by
        have := List.cons_prefix_cons.mp hpre
        exact this.1
      have hmem : q0 ∈ p0 :: pt :=
        hsuf.subset (List.mem_cons_self q0 q')
      rw [h0] at hmem
      exact absurd hmem hr
    · rw [pyReplace_cons_neg _ hguard] at hpre
      rcases List.cons_prefix_cons.mp hpre with ⟨rfl, hq'⟩
      cases hq'nil : q' with
      | nil =>
        exact List.cons_prefix_cons.mpr ⟨rfl, by simp⟩
      | cons b q'' =>
        rw [← hq'nil]
        have hsuf' : q' <:+ (p0 :: pt) :=
          (List.suffix_cons q0 q').trans hsuf
        have := ih q' (by simp [hq'nil]) hsuf' hq'
        exact List.cons_prefix_cons.mpr ⟨rfl, this⟩

/-- Main theorem: if the head of the pattern does not occur in the
replacement and the head of the replacement does not occur in the
pattern, the replaced string contains no occurrence of the pattern. -/
theorem pyReplace_no_occurrence {p0 : Char} {pt : Str} {r0 : Char} {rt : Str}
    (hr : r0 ∉ p0 :: pt) (hp : p0 ∉ r0 :: rt) :
    ∀ s, ¬ (p0 :: pt) <:+: pyReplace s (p0 :: pt) (r0 :: rt) := by
  have key : ∀ n s, List.length s ≤ n →
      ¬ (p0 :: pt) <:+: pyReplace s (p0 :: pt) (r0 :: rt) := by
    intro n
    induction n with
    | zero =>
      intro s hs
      have hs0 : s = [] := List.eq_nil_of_length_eq_zero (Nat.le_zero.mp hs)
      subst hs0
      rw [pyReplace_nil]
      simp
    | succ m ih =>
      intro s hs
      cases s with
      | nil => rw [pyReplace_nil]; simp
      | cons c cs =>
        have hcs : cs.length ≤ m := Nat.succ_le_succ_iff.mp hs
        by_cases hguard :
            ((p0 :: pt).isPrefixOf (c :: cs) && !(p0 :: pt).isEmpty) = true
        · rw [pyReplace_cons_pos _ hguard]
          intro hocc
          have hd : (cs.drop ((p0 :: pt).length - 1)).length ≤ m := by
            simp only [List.length_drop]
            omega
          rcases infix_append_split hocc with h1 | h2 | ⟨x, y, hxy, hx, hxa, _⟩
          · exact hp (h1.subset (List.mem_cons_self p0 pt))
          · exact ih _ hd h2
          · obtain ⟨x0, x', rfl⟩ := List.exists_cons_of_ne_nil hx
            have hx0 : x0 = p0 := by
              have : (x0 :: x') <+: (p0 :: pt) := ⟨y, hxy.symm⟩
              exact (List.cons_prefix_cons.mp this).1
            have : x0 ∈ r0 :: rt := hxa.subset (List.mem_cons_self x0 x')
            rw [hx0] at this
            exact hp this
        · rw [pyReplace_cons_neg _ hguard]
          intro hocc
          rcases List.infix_cons_iff.mp hocc with hpre | htail
          · rcases List.cons_prefix_cons.mp hpre with ⟨rfl, hpt⟩
            cases hpt0 : pt with
            | nil =>
              have : (p0 :: pt).isPrefixOf (p0 :: cs) = true := by
                apply List.isPrefixOf_iff_prefix.mpr
                exact List.cons_prefix_cons.mpr ⟨rfl, by simp [hpt0]⟩
              simp [this] at hguard
            | cons b pt' =>
              have htrans : pt <+: cs :=
                pyReplace_suffix_transfer hr cs pt (by simp [hpt0])
                  (List.suffix_cons p0 pt) hpt
              have : (p0 :: pt).isPrefixOf (p0 :: cs) = true :=
                List.isPrefixOf_iff_prefix.mpr
                  (List.cons_prefix_cons.mpr ⟨rfl, htrans⟩)
              simp [this] at hguard
          · exact ih _ hcs htail
  intro s
  exact key s.length s le_rfl

section Sanity

example : pyReplace "Hola \x7b\x7bname\x7d\x7d!".toList placeholder "Ann".toList
    = "Hola Ann!".toList := by decide

example : pyReplace "\x7b\x7bname\x7b\x7bname\x7d\x7d\x7d\x7d".toList placeholder []
    = placeholder := by decide

example : pySplit "a\x7b\x7bname\x7d\x7db".toList placeholder
    = ["a".toList, "b".toList] := by decide

example :
    send_email_smtp ⟨none, none, none, none⟩ (Except.ok ()) "t".toList [] []
      = (true, "SIMULATED".toList) := by decide

example :
    send_email_smtp ⟨some "h".toList, some "u".toList, some "p".toList, none⟩
      (Except.error "boom".toList) "t".toList [] []
      = (false, "boom".toList) := by decide

end Sanity

/-! ## Claim theorems -/

/-- C1: For every campaign and every ordered list of N recipients, the
bulk send appends exactly N SendRecords to the send log — one per
recipient, in iteration order (matching emails, contact ids and campaign
id) — for every possible outcome of the delivery attempts: an individual
delivery failure never aborts the iteration. -/
theorem C1_bulk_send_one_record_per_recipient (cfg : Config)
    (net : Nat → Except Str Unit) (campaign : Campaign)
    (recipients : List Recipient) (k : Nat) :
    (page_send_bulk cfg net campaign recipients k).1.length = recipients.length
    ∧ (page_send_bulk cfg net campaign recipients k).1.map
        (fun rec => rec.email) = recipients.map (fun r => r.email)
    ∧ (page_send_bulk cfg net campaign recipients k).1.map
        (fun rec => rec.contact_id) = recipients.map (fun r => some r.id)
    ∧ (page_send_bulk cfg net campaign recipients k).1.map
        (fun rec => rec.campaign_id) = recipients.map (fun _ => campaign.id) := by
  induction recipients generalizing k with
  | nil => simp [page_send_bulk]
  | cons r rs ih =>
    obtain ⟨h1, h2, h3, h4⟩ := ih (k + 1)
    simp only [page_send_bulk, List.length_cons, List.map_cons]
    exact ⟨by rw [h1], by rw [h2], by rw [h3], by rw [h4]⟩

/-- C2: the success counter returned by the bulk send equals the number
of recipients for which the delivery adapter returned success, and never
exceeds the number of recipients. -/
theorem C2_bulk_send_success_count (cfg : Config)
    (net : Nat → Except Str Unit) (campaign : Campaign)
    (recipients : List Recipient) (k : Nat) :
    (page_send_bulk cfg net campaign recipients k).2.2
      = ((List.enumFrom k recipients).filter
          (fun p => (send_email_smtp cfg (net p.1) p.2.email campaign.subject
            (render campaign.body (pyOrStr p.2.name []))).1)).length
    ∧ (page_send_bulk cfg net campaign recipients k).2.2
        ≤ recipients.length := by
  have main : ∀ rs k, (page_send_bulk cfg net campaign rs k).2.2
      = ((List.enumFrom k rs).filter
          (fun p => (send_email_smtp cfg (net p.1) p.2.email campaign.subject
            (render campaign.body (pyOrStr p.2.name []))).1)).length := by
    intro rs
    induction rs with
    | nil => intro k; simp [page_send_bulk]
    | cons r rs ih =>
      intro k
      simp only [page_send_bulk, List.enumFrom_cons]
      by_cases hok : (send_email_smtp cfg (net k) r.email campaign.subject
          (render campaign.body (pyOrStr r.name []))).1 = true
      · rw [List.filter_cons_of_pos (by simpa using hok)]
        simp [hok, ih (k + 1), Nat.add_comm]
      · rw [List.filter_cons_of_neg (by simpa using hok)]
        simp only [Bool.not_eq_true] at hok
        simp [hok, ih (k + 1)]
  constructor
  · exact main recipients k
  · calc (page_send_bulk cfg net campaign recipients k).2.2
        = _ := main recipients k
    _ ≤ (List.enumFrom k recipients).length := List.length_filter_le _ _
    _ = recipients.length := by simp

/-- C4: with no relay configured (all four environment variables unset)
every adapter call returns success with the marker `SIMULATED`,
independently of the network behaviour (no network action), and every
record written by a bulk send has status `SENT`. -/
theorem C4_simulation_mode_all_sent (cfg : Config)
    (h : cfg.smtp_host = none ∧ cfg.smtp_user = none
      ∧ cfg.smtp_pass = none ∧ cfg.from_email_env = none) :
    (∀ net net' to_email subject body,
      send_email_smtp cfg net to_email subject body
          = (true, "SIMULATED".toList)
      ∧ send_email_smtp cfg net to_email subject body
          = send_email_smtp cfg net' to_email subject body)
    ∧ ∀ net campaign recipients k rec,
        rec ∈ (page_send_bulk cfg net campaign recipients k).1 →
        rec.status = "SENT".toList := by
  have hsim : simulationGuard cfg = true := by
    simp [simulationGuard, pyTruthy, h.1]
  have hsend : ∀ net to_email subject body,
      send_email_smtp cfg net to_email subject body
        = (true, "SIMULATED".toList) := by
    intro net to_email subject body
    simp [send_email_smtp, hsim]
  refine ⟨fun net net' t s b => ⟨hsend net t s b, by rw [hsend, hsend]⟩, ?_⟩
  intro net campaign recipients
  induction recipients with
  | nil => intro k rec hrec; simp [page_send_bulk] at hrec
  | cons r rs ih =>
    intro k rec hrec
    simp only [page_send_bulk, List.mem_cons] at hrec
    rcases hrec with rfl | hrec'
    · simp [hsend]
    · exact ih (k + 1) rec hrec'

/-- Witness for C4 at a concrete unconfigured environment: the adapter
simulates even when the network would fail, and the single record of a
concrete bulk send has status `SENT`. -/
theorem C4_simulation_mode_all_sent_witness :
    send_email_smtp ⟨none, none, none, none⟩ (Except.error "boom".toList)
        "t@x.com".toList "s".toList "b".toList = (true, "SIMULATED".toList)
    ∧ SendRecord.status
        ⟨1, some 7, "a@x.com".toList, "SENT".toList, "SIMULATED".toList⟩
        = "SENT".toList := by
  constructor
  · exact ((C4_simulation_mode_all_sent ⟨none, none, none, none⟩
      ⟨rfl, rfl, rfl, rfl⟩).1 (Except.error "boom".toList) (Except.ok ())
      "t@x.com".toList "s".toList "b".toList).1
  · exact (C4_simulation_mode_all_sent ⟨none, none, none, none⟩
      ⟨rfl, rfl, rfl, rfl⟩).2 (fun _ => Except.ok ())
      ⟨1, "s".toList, "b".toList⟩ [⟨7, some "Ann".toList, "a@x.com".toList⟩] 0
      ⟨1, some 7, "a@x.com".toList, "SENT".toList, "SIMULATED".toList⟩
      (by decide)

theorem joinSep_empty_sep : ∀ l : List Str, joinSep [] l = l.flatten := by
  intro l
  induction l with
  | nil => rfl
  | cons a rest ih =>
    cases rest with
    | nil => simp [joinSep]
    | cons b r => simp only [joinSep, List.flatten_cons, ← ih]; simp

/-- C3: rendering replaces every scanned occurrence of the placeholder
token by the given value (split-and-join characterisation); with value
`"Ann"` the result contains no occurrence of the token at all; with the
empty value the occurrences are removed and the kept segments are
token-free; a body without the token is unchanged. -/
theorem C3_render_substitution :
    (∀ body value : Str,
      render body value = joinSep value (pySplit body placeholder))
    ∧ (∀ body : Str, ¬ placeholder <:+: render body "Ann".toList)
    ∧ (∀ body : Str, render body [] = (pySplit body placeholder).flatten)
    ∧ (∀ body seg : Str, seg ∈ pySplit body placeholder →
        ¬ placeholder <:+: seg)
    ∧ (∀ body value : Str, ¬ placeholder <:+: body →
        render body value = body) := by
  have hph : placeholder = '\x7b' :: "\x7bname\x7d\x7d".toList := by decide
  have hann : "Ann".toList = 'A' :: "nn".toList := by decide
  refine ⟨?_, ?_, ?_, ?_, ?_⟩
  · intro body value
    exact pyReplace_eq_joinSep placeholder value body
  · intro body
    show ¬ placeholder <:+: pyReplace body placeholder "Ann".toList
    rw [hph, hann]
    exact pyReplace_no_occurrence (by decide) (by decide) body
  · intro body
    show pyReplace body placeholder [] = _
    rw [pyReplace_eq_joinSep, joinSep_empty_sep]
  · intro body seg hseg
    rw [hph] at hseg ⊢
    exact pySplit_seg_clean _ _ body seg hseg
  · intro body value h
    exact pyReplace_no_occ placeholder value body h

/-- Witness for C3 on the concrete body `"Hola {{name}}!"` (and the
token-free body `"Hi"`). -/
theorem C3_render_substitution_witness :
    render "Hola \x7b\x7bname\x7d\x7d!".toList "Ann".toList
        = joinSep "Ann".toList
            (pySplit "Hola \x7b\x7bname\x7d\x7d!".toList placeholder)
    ∧ ¬ placeholder <:+: render "Hola \x7b\x7bname\x7d\x7d!".toList "Ann".toList
    ∧ render "Hola \x7b\x7bname\x7d\x7d!".toList []
        = (pySplit "Hola \x7b\x7bname\x7d\x7d!".toList placeholder).flatten
    ∧ ¬ placeholder <:+: "Hola ".toList
    ∧ render "Hi".toList "Ann".toList = "Hi".toList :=
  ⟨C3_render_substitution.1 _ _,
   C3_render_substitution.2.1 _,
   C3_render_substitution.2.2.1 _,
   C3_render_substitution.2.2.2.1 "Hola \x7b\x7bname\x7d\x7d!".toList
     "Hola ".toList (by decide),
   C3_render_substitution.2.2.2.2 "Hi".toList "Ann".toList (by decide)⟩

/-- C8: a test send to a (truthy) destination renders the body with the
fixed literal `"Prueba"`, invokes the delivery adapter exactly once with
that rendered body, and writes exactly one SendRecord, whose `contact_id`
is unset and whose email equals the destination address. -/
theorem C8_test_send (cfg : Config) (net : Except Str Unit)
    (campaign : Campaign) (test_email : Str) (h : test_email ≠ []) :
    ∃ rec ok,
      page_send_test cfg net campaign test_email
        = some ([rec],
            [⟨test_email, campaign.subject,
              render campaign.body "Prueba".toList⟩], ok)
      ∧ rec.contact_id = none ∧ rec.email = test_email := by
  have hne : test_email.isEmpty = false := by
    cases test_email with
    | nil => exact absurd rfl h
    | cons c cs => rfl
  refine ⟨⟨campaign.id, none, test_email,
    if (send_email_smtp cfg net test_email campaign.subject
        (render campaign.body "Prueba".toList)).1
    then "SENT".toList else "ERROR".toList,
    (send_email_smtp cfg net test_email campaign.subject
        (render campaign.body "Prueba".toList)).2⟩,
    (send_email_smtp cfg net test_email campaign.subject
        (render campaign.body "Prueba".toList)).1, ?_, rfl, rfl⟩
  simp [page_send_test, hne]

/-- Witness for C8 at a concrete test destination. -/
theorem C8_test_send_witness :
    ∃ rec ok,
      page_send_test ⟨none, none, none, none⟩ (Except.ok ())
          ⟨3, "s".toList, "Hola \x7b\x7bname\x7d\x7d".toList⟩ "t@x.com".toList
        = some ([rec],
            [⟨"t@x.com".toList, "s".toList,
              render "Hola \x7b\x7bname\x7d\x7d".toList "Prueba".toList⟩], ok)
      ∧ rec.contact_id = none ∧ rec.email = "t@x.com".toList :=
  C8_test_send ⟨none, none, none, none⟩ (Except.ok ())
    ⟨3, "s".toList, "Hola \x7b\x7bname\x7d\x7d".toList⟩ "t@x.com".toList
    (by decide)

/-- C5 counterexample: with the relay host and password configured but the
username unset — so host/user/password/from-address are NOT all absent —
the adapter still operates in simulation mode (returns the `SIMULATED`
marker): simulation mode is not equivalent to "all absent". -/
theorem C5_counterexample :
    send_email_smtp
        ⟨some "smtp.example.com".toList, none, some "hunter2".toList, none⟩
        (Except.ok ()) "to@x.com".toList "s".toList "b".toList
      = (true, "SIMULATED".toList)
    ∧ (⟨some "smtp.example.com".toList, none, some "hunter2".toList,
        none⟩ : Config).smtp_host ≠ none := by
  decide

/-- C5 (amended): the adapter returns the simulated success iff at least
one of relay host, relay username, relay password or the computed
from-address is absent or empty; when all four are present it performs
one real delivery attempt and converts any failure into
`(false, error_detail)` without retry. -/
theorem C5_adapter_simulation_mode (cfg : Config) (net : Except Str Unit)
    (t s b : Str) :
    (send_email_smtp cfg net t s b = (true, "SIMULATED".toList)
      ↔ ¬(pyTruthy cfg.smtp_host = true ∧ pyTruthy cfg.smtp_user = true
          ∧ pyTruthy cfg.smtp_pass = true
          ∧ (FROM_EMAIL cfg).isEmpty = false))
    ∧ ((pyTruthy cfg.smtp_host = true ∧ pyTruthy cfg.smtp_user = true
        ∧ pyTruthy cfg.smtp_pass = true
        ∧ (FROM_EMAIL cfg).isEmpty = false) →
      (net = Except.ok () → send_email_smtp cfg net t s b = (true, []))
      ∧ ∀ e, net = Except.error e →
          send_email_smtp cfg net t s b = (false, e)) := by
  have hgb : simulationGuard cfg = false
      ↔ (pyTruthy cfg.smtp_host = true ∧ pyTruthy cfg.smtp_user = true
          ∧ pyTruthy cfg.smtp_pass = true
          ∧ (FROM_EMAIL cfg).isEmpty = false) := by
    simp [simulationGuard]
    tauto
  constructor
  · by_cases hsim : simulationGuard cfg = true
    · simp only [send_email_smtp, if_pos hsim, true_iff]
      intro hconf
      rw [← hgb] at hconf
      rw [hsim] at hconf
      cases hconf
    · have hfalse : simulationGuard cfg = false := by
        revert hsim; cases simulationGuard cfg <;> simp
      constructor
      · intro heq
        exfalso
        cases net with
        | ok u =>
          simp only [send_email_smtp, if_neg hsim, Prod.mk.injEq] at heq
          exact absurd heq.2 (by decide)
        | error e =>
          simp only [send_email_smtp, if_neg hsim, Prod.mk.injEq] at heq
          exact absurd heq.1 (by decide)
      · intro hconf
        rw [← hgb] at hconf
        rw [hfalse] at hconf
        cases hconf rfl
  · intro hconf
    have hfalse : simulationGuard cfg = false := hgb.mpr hconf
    have hsim : ¬ simulationGuard cfg = true := by simp [hfalse]
    constructor
    · intro hnet
      subst hnet
      simp [send_email_smtp, if_neg hsim]
    · intro e hnet
      subst hnet
      simp [send_email_smtp, if_neg hsim]

/-- Witness for C5 (amended): a fully configured adapter propagates the
network failure; a fully unset one simulates. -/
theorem C5_adapter_simulation_mode_witness :
    send_email_smtp ⟨some "h".toList, some "u".toList, some "p".toList, none⟩
        (Except.error "boom".toList) "t".toList "s".toList "b".toList
      = (false, "boom".toList)
    ∧ send_email_smtp ⟨none, none, none, none⟩ (Except.ok ())
        "t".toList "s".toList "b".toList = (true, "SIMULATED".toList) := by
  constructor
  · exact ((C5_adapter_simulation_mode
      ⟨some "h".toList, some "u".toList, some "p".toList, none⟩
      (Except.error "boom".toList) "t".toList "s".toList "b".toList).2
      (by decide)).2 "boom".toList rfl
  · exact (C5_adapter_simulation_mode ⟨none, none, none, none⟩
      (Except.ok ()) "t".toList "s".toList "b".toList).1.mpr (by decide)

theorem insert_contact_noop_of_mem (st : ContactStore) (name email tags : Str)
    (h : ∃ c ∈ st.contacts, c.email = pyLower (pyStrip email)) :
    insert_contact st name email tags = st := by
  obtain ⟨c, hc, he⟩ := h
  have hany : st.contacts.any
      (fun c => c.email = pyLower (pyStrip email)) = true := by
    rw [List.any_eq_true]
    exact ⟨c, hc, by simp [he]⟩
  simp [insert_contact, hany]

theorem insert_contact_mem (st : ContactStore) (name email tags : Str) :
    ∃ c ∈ (insert_contact st name email tags).contacts,
      c.email = pyLower (pyStrip email) := by
  by_cases hany : st.contacts.any
      (fun c => c.email = pyLower (pyStrip email)) = true
  · have hst : insert_contact st name email tags = st := by
      simp only [insert_contact, if_pos hany]
    rw [hst, List.any_eq_true] at *
    obtain ⟨c, hc, he⟩ := hany
    exact ⟨c, hc, by simpa using he⟩
  · have hst : insert_contact st name email tags
        = ⟨st.contacts ++ [⟨st.nextId, pyStrip name,
            pyLower (pyStrip email), pyStrip tags⟩], st.nextId + 1⟩ := by
      simp only [insert_contact, if_neg hany]
    rw [hst]
    exact ⟨⟨st.nextId, pyStrip name, pyLower (pyStrip email), pyStrip tags⟩,
      by simp, rfl⟩

/-- C6: inserting a contact whose (normalised) email is already present
leaves the store unchanged — no error, same contact count — and inserting
the same email twice (in any character case or surrounding whitespace
variant) is equivalent to inserting it once. -/
theorem C6_duplicate_insert_idempotent (st : ContactStore)
    (name email tags : Str) :
    ((∃ c ∈ st.contacts, c.email = pyLower (pyStrip email)) →
      insert_contact st name email tags = st
      ∧ (insert_contact st name email tags).contacts.length
          = st.contacts.length)
    ∧ ∀ name' email' tags',
        pyLower (pyStrip email') = pyLower (pyStrip email) →
        insert_contact (insert_contact st name email tags) name' email' tags'
          = insert_contact st name email tags := by
  constructor
  · intro h
    have := insert_contact_noop_of_mem st name email tags h
    exact ⟨this, by rw [this]⟩
  · intro name' email' tags' h
    apply insert_contact_noop_of_mem
    rw [h]
    exact insert_contact_mem st name email tags

/-- Witness for C6: a case- and whitespace-variant duplicate of
`ann@x.com` is a no-op, and a repeated insert equals a single insert. -/
theorem C6_duplicate_insert_idempotent_witness :
    insert_contact ⟨[⟨0, [], "ann@x.com".toList, []⟩], 1⟩ "A".toList
        " Ann@X.com ".toList [] = ⟨[⟨0, [], "ann@x.com".toList, []⟩], 1⟩
    ∧ insert_contact (insert_contact ⟨[], 0⟩ [] "ann@x.com".toList [])
        [] "ANN@X.COM".toList []
      = insert_contact ⟨[], 0⟩ [] "ann@x.com".toList [] := by
  constructor
  · exact ((C6_duplicate_insert_idempotent
      ⟨[⟨0, [], "ann@x.com".toList, []⟩], 1⟩ "A".toList
      " Ann@X.com ".toList []).1
      ⟨⟨0, [], "ann@x.com".toList, []⟩, by decide, by decide⟩).1
  · exact (C6_duplicate_insert_idempotent ⟨[], 0⟩ [] "ann@x.com".toList
      []).2 [] "ANN@X.COM".toList [] (by decide)

/-- C7 counterexample: in simulation mode a bulk send writes a record
whose status is `SENT` but whose error field is the non-empty marker
`SIMULATED` — a `SENT` record need not have an empty error field. -/
theorem C7_counterexample :
    (page_send_bulk ⟨none, none, none, none⟩ (fun _ => Except.ok ())
        ⟨1, "s".toList, "b".toList⟩
        [⟨7, some "Ann".toList, "a@x.com".toList⟩] 0).1
      = [⟨1, some 7, "a@x.com".toList, "SENT".toList, "SIMULATED".toList⟩]
    ∧ "SIMULATED".toList ≠ ([] : Str) := by
  decide

theorem send_ok_detail (cfg : Config) (net : Except Str Unit) (t s b : Str)
    (hok : (send_email_smtp cfg net t s b).1 = true) :
    (send_email_smtp cfg net t s b).2 = []
    ∨ (send_email_smtp cfg net t s b).2 = "SIMULATED".toList := by
  by_cases hsim : simulationGuard cfg = true
  · right
    simp [send_email_smtp, hsim]
  · left
    cases net with
    | ok u => simp [send_email_smtp, hsim]
    | error e => simp [send_email_smtp, hsim] at hok

theorem send_ok_detail_configured (cfg : Config) (net : Except Str Unit)
    (t s b : Str) (hns : simulationGuard cfg = false)
    (hok : (send_email_smtp cfg net t s b).1 = true) :
    (send_email_smtp cfg net t s b).2 = [] := by
  have hsim : ¬ simulationGuard cfg = true := by simp [hns]
  cases net with
  | ok u => simp [send_email_smtp, hsim]
  | error e => simp [send_email_smtp, hsim] at hok

/-- C7 (amended): a record written with status `SENT` carries the
adapter's success detail: the empty string for a real delivery, or the
marker `SIMULATED` for a simulated one.  When host, username, password
and from-address are all configured, every `SENT` record (bulk or test)
has an empty error field. -/
theorem C7_sent_record_error (cfg : Config) (net : Nat → Except Str Unit)
    (net0 : Except Str Unit) (campaign : Campaign)
    (recipients : List Recipient) (k : Nat) (test_email : Str) :
    (∀ rec ∈ (page_send_bulk cfg net campaign recipients k).1,
        rec.status = "SENT".toList →
        rec.error = [] ∨ rec.error = "SIMULATED".toList)
    ∧ ((pyTruthy cfg.smtp_host = true ∧ pyTruthy cfg.smtp_user = true
        ∧ pyTruthy cfg.smtp_pass = true
        ∧ (FROM_EMAIL cfg).isEmpty = false) →
      ∀ rec ∈ (page_send_bulk cfg net campaign recipients k).1,
        rec.status = "SENT".toList → rec.error = [])
    ∧ (∀ log calls ok, page_send_test cfg net0 campaign test_email
          = some (log, calls, ok) →
        ∀ rec ∈ log, rec.status = "SENT".toList →
          rec.error = [] ∨ rec.error = "SIMULATED".toList)
    ∧ ((pyTruthy cfg.smtp_host = true ∧ pyTruthy cfg.smtp_user = true
        ∧ pyTruthy cfg.smtp_pass = true
        ∧ (FROM_EMAIL cfg).isEmpty = false) →
      ∀ log calls ok, page_send_test cfg net0 campaign test_email
          = some (log, calls, ok) →
        ∀ rec ∈ log, rec.status = "SENT".toList → rec.error = []) := by
  have hconf_guard : (pyTruthy cfg.smtp_host = true
      ∧ pyTruthy cfg.smtp_user = true ∧ pyTruthy cfg.smtp_pass = true
      ∧ (FROM_EMAIL cfg).isEmpty = false) → simulationGuard cfg = false := by
    intro hconf
    obtain ⟨h1, h2, h3, h4⟩ := hconf
    simp [simulationGuard, h1, h2, h3, h4]
  have hbulk : ∀ rs k, ∀ rec ∈ (page_send_bulk cfg net campaign rs k).1,
      rec.status = "SENT".toList →
      rec.error = [] ∨ rec.error = "SIMULATED".toList := by
    intro rs
    induction rs with
    | nil => intro k rec h; simp [page_send_bulk] at h
    | cons r rs ih =>
      intro k rec hrec hsent
      simp only [page_send_bulk, List.mem_cons] at hrec
      rcases hrec with rfl | h'
      · by_cases hok : (send_email_smtp cfg (net k) r.email campaign.subject
            (render campaign.body (pyOrStr r.name []))).1 = true
        · simpa using send_ok_detail cfg (net k) _ _ _ hok
        · simp only [Bool.not_eq_true] at hok
          simp only [hok] at hsent
          exact absurd hsent (by decide)
      · exact ih (k + 1) rec h' hsent
  have hbulk_conf : simulationGuard cfg = false →
      ∀ rs k, ∀ rec ∈ (page_send_bulk cfg net campaign rs k).1,
        rec.status = "SENT".toList → rec.error = [] := by
    intro hns rs
    induction rs with
    | nil => intro k rec h; simp [page_send_bulk] at h
    | cons r rs ih =>
      intro k rec hrec hsent
      simp only [page_send_bulk, List.mem_cons] at hrec
      rcases hrec with rfl | h'
      · by_cases hok : (send_email_smtp cfg (net k) r.email campaign.subject
            (render campaign.body (pyOrStr r.name []))).1 = true
        · simpa using send_ok_detail_configured cfg (net k) _ _ _ hns hok
        · simp only [Bool.not_eq_true] at hok
          simp only [hok] at hsent
          exact absurd hsent (by decide)
      · exact ih (k + 1) rec h' hsent
  have htest : ∀ log calls ok, page_send_test cfg net0 campaign test_email
      = some (log, calls, ok) →
      ∀ rec ∈ log, rec.status = "SENT".toList →
        (rec.error = [] ∨ rec.error = "SIMULATED".toList)
        ∧ (simulationGuard cfg = false → rec.error = []) := by
    intro log calls ok heq rec hrec hsent
    by_cases hte : test_email.isEmpty = true
    · simp [page_send_test, hte] at heq
    · simp only [page_send_test, if_neg hte, Option.some.injEq,
        Prod.mk.injEq] at heq
      obtain ⟨hlog, -, -⟩ := heq
      rw [← hlog] at hrec
      rcases List.mem_singleton.mp hrec with rfl
      by_cases hok : (send_email_smtp cfg net0 test_email campaign.subject
          (render campaign.body "Prueba".toList)).1 = true
      · constructor
        · simpa using send_ok_detail cfg net0 _ _ _ hok
        · intro hns
          simpa using send_ok_detail_configured cfg net0 _ _ _ hns hok
      · simp only [Bool.not_eq_true] at hok
        simp only [hok] at hsent
        exact absurd hsent (by decide)
  refine ⟨hbulk recipients k, ?_, ?_, ?_⟩
  · intro hconf
    exact hbulk_conf (hconf_guard hconf) recipients k
  · intro log calls ok heq rec hrec hsent
    exact (htest log calls ok heq rec hrec hsent).1
  · intro hconf log calls ok heq rec hrec hsent
    exact (htest log calls ok heq rec hrec hsent).2 (hconf_guard hconf)

/-- Witness for C7 (amended) at concrete simulated and configured runs. -/
theorem C7_sent_record_error_witness :
    (SendRecord.error
        ⟨1, some 7, "a@x.com".toList, "SENT".toList, "SIMULATED".toList⟩ = []
      ∨ SendRecord.error
        ⟨1, some 7, "a@x.com".toList, "SENT".toList, "SIMULATED".toList⟩
          = "SIMULATED".toList)
    ∧ SendRecord.error ⟨1, some 7, "a@x.com".toList, "SENT".toList, []⟩
        = [] := by
  constructor
  · exact (C7_sent_record_error ⟨none, none, none, none⟩
      (fun _ => Except.ok ()) (Except.ok ()) ⟨1, "s".toList, "b".toList⟩
      [⟨7, some "Ann".toList, "a@x.com".toList⟩] 0 "t".toList).1
      ⟨1, some 7, "a@x.com".toList, "SENT".toList, "SIMULATED".toList⟩
      (by decide) (by decide)
  · exact (C7_sent_record_error
      ⟨some "h".toList, some "u".toList, some "p".toList, none⟩
      (fun _ => Except.ok ()) (Except.ok ()) ⟨1, "s".toList, "b".toList⟩
      [⟨7, some "Ann".toList, "a@x.com".toList⟩] 0 "t".toList).2.1
      (by decide)
      ⟨1, some 7, "a@x.com".toList, "SENT".toList, []⟩
      (by decide) (by decide)

/-- C9: bulk import inserts exactly the rows whose stringified email is
non-empty and whose insert does not raise (in row order), and returns
their count; rows with an empty email or a raising insert contribute
nothing to the store or the count. -/
theorem C9_bulk_import_filter (raises : Nat → Bool) (st : ContactStore)
    (rows : List Row) (i : Nat) :
    (bulk_import_contacts raises st rows i).2
      = ((List.enumFrom i rows).filter
          (fun p => !(rowEmail p.2).isEmpty && !raises p.1)).length
    ∧ (bulk_import_contacts raises st rows i).1
      = ((List.enumFrom i rows).filter
          (fun p => !(rowEmail p.2).isEmpty && !raises p.1)).foldl
          (fun s p => insert_contact s (rowName p.2) (rowEmail p.2)
            (rowTags p.2)) st := by
  have unfold_cons : ∀ st row rest i,
      bulk_import_contacts raises st (row :: rest) i
        = (if (rowEmail row).isEmpty = true
           then bulk_import_contacts raises st rest (i + 1)
           else if raises i = true
           then bulk_import_contacts raises st rest (i + 1)
           else ((bulk_import_contacts raises
              (insert_contact st (rowName row) (rowEmail row) (rowTags row))
              rest (i + 1)).1,
             (bulk_import_contacts raises
              (insert_contact st (rowName row) (rowEmail row) (rowTags row))
              rest (i + 1)).2 + 1)) := by
    intro st row rest i
    rfl
  induction rows generalizing st i with
  | nil => simp [bulk_import_contacts]
  | cons row rest ih =>
    by_cases he : (rowEmail row).isEmpty = true
    · rw [unfold_cons, if_pos he, List.enumFrom_cons]
      have hcond : (!(rowEmail row).isEmpty && !raises i) = false := by
        rw [he]
        rfl
      simp only [List.filter_cons, hcond]
      simpa using ih st (i + 1)
    · have he' : (rowEmail row).isEmpty = false := by
        revert he
        cases (rowEmail row).isEmpty <;> simp
      by_cases hr : raises i = true
      · rw [unfold_cons, if_neg he, if_pos hr, List.enumFrom_cons]
        have hcond : (!(rowEmail row).isEmpty && !raises i) = false := by
          rw [hr, he']
          rfl
        simp only [List.filter_cons, hcond]
        simpa using ih st (i + 1)
      · have hr' : raises i = false := by
          revert hr
          cases raises i <;> simp
        rw [unfold_cons, if_neg he, if_neg hr, List.enumFrom_cons]
        have hcond : (!(rowEmail row).isEmpty && !raises i) = true := by
          rw [he', hr']
          rfl
        simp only [List.filter_cons, hcond]
        obtain ⟨hc, hs⟩ := ih
          (insert_contact st (rowName row) (rowEmail row) (rowTags row))
          (i + 1)
        constructor
        · simp [hc]
        · simp [hs]

/-- C10: a blank (NaN) cell is stringified to the literal three-letter
string `nan`: a row with a blank email cell yields the non-empty email
`"nan"`, and importing such a row inserts a contact whose email, name and
tags are all the literal text `nan`. -/
theorem C10_nan_cell_stringified :
    pyStr Cell.nan = "nan".toList
    ∧ (∀ nc tc : Cell, rowEmail ⟨Cell.nan, nc, tc⟩ = "nan".toList
        ∧ (rowEmail ⟨Cell.nan, nc, tc⟩).isEmpty = false)
    ∧ bulk_import_contacts (fun _ => false) ⟨[], 0⟩
        [⟨Cell.nan, Cell.nan, Cell.nan⟩] 0
      = (⟨[⟨0, "nan".toList, "nan".toList, "nan".toList⟩], 1⟩, 1) := by
  refine ⟨rfl, fun nc tc => ⟨rfl, rfl⟩, by decide⟩
